import Mathlib

/-!
Shallow embedding of `src/src/vector.h` (template classes `RawMemory<T>` and
`Vector<T>`).

Modelling choices:
* The raw storage of a `Vector` is a list of cells `List (Option α)`:
  `some a` is a constructed element holding value `a`, `none` is raw
  (uninitialized or destroyed) memory.  The list's length is the buffer's
  capacity (`RawMemory::capacity_`).
* Placement-new and copy/move assignment into a cell both write `some v`;
  `std::destroy_at` / `std::destroy_n` write `none`.
* The value-level net effect of the `std` algorithms used by the source
  (`std::copy_n`, `std::uninitialized_copy_n`, `std::uninitialized_move_n`,
  `std::move`, `std::move_backward`, `std::copy`) is writing a segment of the
  *original* source range to a destination offset: with overlapping ranges
  each of them processes elements in the direction that reads every source
  cell before overwriting it.  All are modelled by `writeSeq`.
* `std::uninitialized_move_n` leaves moved-from objects constructed; at the
  value level we keep their old value in the cell (only constructedness
  matters for the claims).
-/

namespace SimpleVector

/-- Storage cells: `some a` = constructed element, `none` = raw memory. -/
abbrev Cells (α : Type) := List (Option α)

/-- Here `seg cs f cnt` is the source range `[f, f + cnt)` of `cs`
(`cs + f` .. `cs + f + cnt` in pointer terms). -/
def seg (cs : Cells α) (f cnt : Nat) : Cells α := (cs.drop f).take cnt

/-- Write the values `vals` into `dst` starting at offset `t`
(net value-level effect of the `std` copy/move algorithms; writes past the
end of `dst` are dropped, which never happens in the modelled calls). -/
def writeSeq (dst : Cells α) (t : Nat) (vals : Cells α) : Cells α :=
  match vals with
  | [] => dst
  | v :: vs => writeSeq (dst.set t v) (t + 1) vs

/-- Models `std::destroy_n(cs + f, cnt)`: destroy `cnt` elements starting at `f`. -/
def destroySeg (cs : Cells α) (f cnt : Nat) : Cells α :=
  writeSeq cs f (List.replicate cnt none)

/-! Model of `RawMemory<T>` (vector.h:11-84).  The buffer pointer is abstracted to an
allocation identifier (`none` = `nullptr`); element type is irrelevant to the
move operations the claims are about.  -/

structure RawMemory where
  buffer_ : Option Nat
  capacity_ : Nat
deriving Repr, DecidableEq

namespace RawMemory

/-- Models `RawMemory(RawMemory&& other)` (vector.h:18-21): the body copies
`other.buffer_` and `other.capacity_` via `std::move` (which for a pointer and
a `size_t` is a plain copy) and leaves `other` unchanged.
Returns (constructed object, state of `other` afterwards). -/
def moveCtor (other : RawMemory) : RawMemory × RawMemory :=
  (⟨other.buffer_, other.capacity_⟩, other)

/-- Models `operator=(RawMemory&& rhs)` (vector.h:22-26): swaps `capacity_` and
`buffer_` with `rhs`.  Returns (state of `*this`, state of `rhs`) afterwards. -/
def moveAssign (this rhs : RawMemory) : RawMemory × RawMemory :=
  (⟨rhs.buffer_, rhs.capacity_⟩, ⟨this.buffer_, this.capacity_⟩)

end RawMemory

/-! Model of `Vector<T>` (vector.h:86-313).  `data_` models the owned buffer's cells
(capacity = `data_.length`), `size_` the live-element count.  -/

structure Vector (α : Type) where
  data_ : Cells α
  size_ : Nat
deriving Repr, DecidableEq

namespace Vector

/-- Models `Size()` (vector.h:284-286). -/
def Size (v : Vector α) : Nat := v.size_

/-- Models `Capacity()` (vector.h:288-290), i.e. `data_.Capacity()`. -/
def Capacity (v : Vector α) : Nat := v.data_.length

/-- The live-element range `[data_, data_ + size_)`. -/
def elems (v : Vector α) : Cells α := v.data_.take v.size_

/-- The class invariant `0 ≤ size_ ≤ data_.Capacity()` (the lower bound is
implicit in `Nat`). -/
def Inv (v : Vector α) : Prop := v.size_ ≤ v.Capacity

instance (v : Vector α) : Decidable v.Inv := by unfold Inv; infer_instance

/-- Models `Vector(size_t size)` (vector.h:94-99): allocates `size` cells and
value-constructs `size` elements (`std::uninitialized_value_construct_n`),
which for the model is the type's default value. -/
def mkSized (α : Type) [Inhabited α] (size : Nat) : Vector α :=
  ⟨writeSeq (List.replicate size none) 0 (List.replicate size (some default)),
   size⟩

/-- Models `Vector(const Vector& other)` (vector.h:101-106): fresh buffer of
capacity `other.size_`, then `std::uninitialized_copy_n` of the live range. -/
def copyCtor (other : Vector α) : Vector α :=
  ⟨writeSeq (List.replicate other.size_ none) 0 (seg other.data_ 0 other.size_),
   other.size_⟩

/-- Models `Vector(Vector&& other)` (vector.h:108-112): `data_ = std::move(other.data_)`
is the `RawMemory` move-assignment, a swap with the default-constructed
(null, 0) member, so `*this` takes the buffer and `other` is left with an
empty one; then `size_` is copied and `other.size_ = 0`.
Returns (constructed object, state of `other` afterwards). -/
def moveCtor (other : Vector α) : Vector α × Vector α :=
  (⟨other.data_, other.size_⟩, ⟨[], 0⟩)

/-- Models `Emplace(pos, args...)` (vector.h:133-178) with `offset = pos - begin()`
and the new element's value `x`.

* `size_ < Capacity()`, `pos == end()`: construct at `data_ + offset`.
* `size_ < Capacity()`, mid-array: build the temporary, move-construct
  `data_[size_ - 1]` into the slot `data_ + size_`, shift `[offset, size_-1)`
  one right by `std::move_backward` (value effect: write the original segment
  at `offset + 1`), move-assign the temporary into `data_[offset]`.
* otherwise: fresh buffer of `size_ == 0 ? 1 : size_ * 2` cells, construct
  `x` at `offset`, `CopyData` the prefix `[0, offset)` to offset `0` and the
  suffix `[offset, size_)` to `offset + 1`, destroy the old elements and
  swap buffers (this is the exception-free path; the failure paths are
  modelled by `EmplaceGrowTrace`). -/
def Emplace (v : Vector α) (offset : Nat) (x : α) : Vector α :=
  if v.size_ < v.Capacity then
    if offset = v.size_ then
      ⟨v.data_.set offset (some x), v.size_ + 1⟩
    else
      let c1 := v.data_.set v.size_ (v.data_.getD (v.size_ - 1) none)
      let c2 := writeSeq c1 (offset + 1) (seg v.data_ offset (v.size_ - 1 - offset))
      ⟨c2.set offset (some x), v.size_ + 1⟩
  else
    let newCap := if v.size_ = 0 then 1 else v.size_ * 2
    let b1 := (List.replicate newCap (none : Option α)).set offset (some x)
    let b2 := writeSeq b1 0 (seg v.data_ 0 offset)
    let b3 := writeSeq b2 (offset + 1) (seg v.data_ offset (v.size_ - offset))
    ⟨b3, v.size_ + 1⟩

/-- Models `Erase(pos)` (vector.h:180-192) with `pos - begin() = i`:
`pos->~T()`, then shift `[i+1, size_)` one slot left (`std::move` in the
nothrow-move branch, `std::copy` otherwise — identical value effect), then
`size_--`. -/
def Erase (v : Vector α) (i : Nat) : Vector α :=
  let c1 := v.data_.set i none
  let c2 := writeSeq c1 i (seg v.data_ (i + 1) (v.size_ - (i + 1)))
  ⟨c2, v.size_ - 1⟩

/-- Models `Insert(pos, value)` (vector.h:194-200): both overloads forward to
`Emplace`. -/
def Insert (v : Vector α) (offset : Nat) (x : α) : Vector α :=
  Emplace v offset x

/-- Models `Reserve(new_capacity)` (vector.h:271-282): no-op when
`new_capacity <= Capacity()`; otherwise fresh buffer of exactly
`new_capacity` cells, `CopyData` the live range, destroy the old elements,
swap. -/
def Reserve (v : Vector α) (newCapacity : Nat) : Vector α :=
  if newCapacity ≤ v.Capacity then v
  else
    ⟨writeSeq (List.replicate newCapacity none) 0 (seg v.data_ 0 v.size_),
     v.size_⟩

/-- Models `Resize(new_size)` (vector.h:202-213): shrink destroys the tail
`[new_size, size_)`; grow calls `Reserve(new_size)` then value-constructs
`[size_, new_size)` (default values). -/
def Resize (v : Vector α) [Inhabited α] (newSize : Nat) : Vector α :=
  if newSize = v.size_ then v
  else if newSize < v.size_ then
    ⟨destroySeg v.data_ newSize (v.size_ - newSize), newSize⟩
  else
    let r := v.Reserve newSize
    ⟨writeSeq r.data_ v.size_ (List.replicate (newSize - v.size_) (some default)),
     newSize⟩

/-- Models `EmplaceBack(args...)` (vector.h:224-227): `Emplace(end(), ...)`. -/
def EmplaceBack (v : Vector α) (x : α) : Vector α :=
  Emplace v v.size_ x

/-- Models `PushBack` (vector.h:215-222): both overloads forward to `EmplaceBack`. -/
def PushBack (v : Vector α) (x : α) : Vector α :=
  EmplaceBack v x

/-- Models `PopBack()` (vector.h:229-232): destroy `data_[size_ - 1]`, `size_--`.
There is no emptiness check in the source; `size_` is a `size_t`, so on an
empty vector both the destroyed offset `size_ - 1` and the decrement wrap
modulo `2^64` (the literal `18446744073709551616`); an out-of-range
destroy is a no-op on the cell list (in C++ it is undefined behaviour). -/
def PopBack (v : Vector α) : Vector α :=
  ⟨v.data_.set ((v.size_ + (18446744073709551616 - 1)) % 18446744073709551616) none,
   (v.size_ + (18446744073709551616 - 1)) % 18446744073709551616⟩

/-- Models `operator=(const Vector& rhs)` (vector.h:234-253), for distinct objects
(the `this != &rhs` guard makes self-assignment a no-op).

* `rhs.size_ > Capacity()`: build `rhs_copy` and swap it in.
* otherwise: `std::copy_n` the first `min(rhs.size_, size_)` elements of
  `rhs` to offset 0; if `rhs.size_ < size_` destroy the tail
  `[rhs.size_, size_)`, else `std::uninitialized_copy_n(rhs.data_ + size_,
  rhs.size_ - size_, data_.GetAddress())` — note the destination is offset 0,
  exactly as in the source (vector.h:246). -/
def copyAssign (this rhs : Vector α) : Vector α :=
  if this.Capacity < rhs.size_ then
    copyCtor rhs
  else
    let c1 := writeSeq this.data_ 0 (seg rhs.data_ 0 (min rhs.size_ this.size_))
    let c2 :=
      if rhs.size_ < this.size_ then
        destroySeg c1 rhs.size_ (this.size_ - rhs.size_)
      else
        writeSeq c1 0 (seg rhs.data_ this.size_ (rhs.size_ - this.size_))
    ⟨c2, rhs.size_⟩

/-- Models `operator=(Vector&& rhs)` (vector.h:255-260): `data_` move-assignment
swaps the buffers, `size_` is copied from `rhs`, then `rhs.size_ = 0`.
Returns (state of `*this`, state of `rhs`) afterwards. -/
def moveAssign (this rhs : Vector α) : Vector α × Vector α :=
  (⟨rhs.data_, rhs.size_⟩, ⟨this.data_, 0⟩)

/-- Models `Swap(other)` (vector.h:262-265): swap buffers and sizes.
Returns (state of `*this`, state of `other`) afterwards. -/
def SwapV (this other : Vector α) : Vector α × Vector α :=
  (⟨other.data_, other.size_⟩, ⟨this.data_, this.size_⟩)

/-- Instrumentation record for one call of the capacity-exhausted branch of
`Emplace`: the state of `*this` after the call, whether an exception escaped,
how many elements were constructed and destroyed in the new storage, how many
of the old storage's elements were destroyed, and whether the old storage was
released (swapped into the local `new_data` and deallocated). -/
structure EmplaceGrowTrace (α : Type) where
  vec : Vector α
  threw : Bool
  newConstructed : Nat
  newDestroyed : Nat
  oldDestroyed : Nat
  oldReleased : Bool
deriving Repr, DecidableEq

/-- Models the capacity-exhausted branch of `Emplace` (vector.h:150-174) with
exception injection into the two `CopyData` transfers.  Failure is a throwing
element copy (the `std::uninitialized_copy_n` fallback of `CopyData`,
vector.h:302-309; a nothrow move cannot fail): `failPre = some k` means the
copy of the k-th prefix element throws, `failSuf = some k` the copy of the
k-th suffix element.

Counting follows the source: the new element at `new_data + offset` is
constructed first (1 construction).  A transfer that throws after
constructing `k` copies destroys those `k` itself
(`std::uninitialized_copy_n` destroys the objects it already constructed
before rethrowing); the first catch (vector.h:158-161) then destroys the new
element (`std::destroy_at(new_data + offset)`, 1 destruction), the second
catch (vector.h:166-169) destroys the prefix and the new element
(`std::destroy_n(new_data.GetAddress(), offset + 1)`).  Only on the
exception-free path are the old `size_` elements destroyed and the buffers
swapped (vector.h:171-172). -/
def EmplaceGrow (v : Vector α) (offset : Nat) (x : α)
    (failPre failSuf : Option Nat) : EmplaceGrowTrace α :=
  let newCap := if v.size_ = 0 then 1 else v.size_ * 2
  let b1 := (List.replicate newCap (none : Option α)).set offset (some x)
  match failPre with
  | some k =>
      { vec := v, threw := true,
        newConstructed := 1 + k, newDestroyed := k + 1,
        oldDestroyed := 0, oldReleased := false }
  | none =>
    let b2 := writeSeq b1 0 (seg v.data_ 0 offset)
    match failSuf with
    | some k =>
        { vec := v, threw := true,
          newConstructed := 1 + offset + k, newDestroyed := k + (offset + 1),
          oldDestroyed := 0, oldReleased := false }
    | none =>
      let b3 := writeSeq b2 (offset + 1) (seg v.data_ offset (v.size_ - offset))
      { vec := ⟨b3, v.size_ + 1⟩, threw := false,
        newConstructed := 1 + offset + (v.size_ - offset), newDestroyed := 0,
        oldDestroyed := v.size_, oldReleased := true }

end Vector

/-! Basic lemmas about the cell-level helpers. -/

theorem length_writeSeq (dst : Cells α) (t : Nat) (vals : Cells α) :
    (writeSeq dst t vals).length = dst.length := by
  induction vals generalizing dst t with
  | nil => rfl
  | cons v vs ih => rw [writeSeq, ih, List.length_set]

theorem getElem?_writeSeq (dst : Cells α) (t : Nat) (vals : Cells α) (k : Nat) :
    (writeSeq dst t vals)[k]? =
      if t ≤ k ∧ k < t + vals.length ∧ k < dst.length then vals[k - t]?
      else dst[k]? := by
  induction vals generalizing dst t with
  | nil =>
      rw [writeSeq]
      rw [if_neg (by simp only [List.length_nil]; omega)]
  | cons v vs ih =>
      rw [writeSeq, ih, List.length_set]
      simp only [List.length_cons]
      rcases Nat.lt_trichotomy k t with h | h | h
      · rw [if_neg (by omega), if_neg (by omega), List.getElem?_set,
          if_neg (by omega)]
      · subst h
        rw [if_neg (by omega), List.getElem?_set, if_pos rfl]
        by_cases hl : k < dst.length
        · rw [if_pos hl, if_pos ⟨Nat.le_refl _, by omega, hl⟩, Nat.sub_self]
          simp
        · rw [if_neg hl, if_neg (by omega), List.getElem?_eq_none (by omega)]
      · by_cases hc : k < t + (vs.length + 1) ∧ k < dst.length
        · rw [if_pos ⟨by omega, by omega, hc.2⟩, if_pos ⟨by omega, by omega, hc.2⟩]
          have hk : k - t = (k - (t + 1)) + 1 := by omega
          rw [hk, List.getElem?_cons_succ]
        · rw [if_neg (by omega), if_neg (by omega), List.getElem?_set,
            if_neg (by omega)]

theorem length_seg (cs : Cells α) (f cnt : Nat) :
    (seg cs f cnt).length = min cnt (cs.length - f) := by
  simp [seg]

theorem getElem?_seg (cs : Cells α) (f cnt j : Nat) :
    (seg cs f cnt)[j]? = if j < cnt then cs[f + j]? else none := by
  by_cases h : j < cnt
  · rw [seg, if_pos h, List.getElem?_take_of_lt h, List.getElem?_drop]
  · rw [seg, if_neg h, List.getElem?_eq_none]
    simp only [List.length_take, List.length_drop]
    omega

theorem getElem?_take_eq (l : List β) (n k : Nat) :
    (l.take n)[k]? = if k < n then l[k]? else none := by
  by_cases h : k < n
  · rw [if_pos h, List.getElem?_take_of_lt h]
  · rw [if_neg h, List.getElem?_eq_none]
    simp only [List.length_take]
    omega

theorem length_destroySeg (cs : Cells α) (f cnt : Nat) :
    (destroySeg cs f cnt).length = cs.length := by
  rw [destroySeg, length_writeSeq]

namespace Vector

/-! Size and capacity computation lemmas for each operation. -/

theorem size_Emplace (v : Vector α) (i : Nat) (x : α) :
    (v.Emplace i x).size_ = v.size_ + 1 := by
  unfold Emplace
  split
  · split <;> rfl
  · rfl

theorem capacity_Emplace_lt (v : Vector α) (i : Nat) (x : α)
    (h : v.size_ < v.Capacity) :
    (v.Emplace i x).Capacity = v.Capacity := by
  unfold Emplace
  rw [if_pos h]
  by_cases he : i = v.size_
  · rw [if_pos he]
    simp [Capacity]
  · rw [if_neg he]
    simp [Capacity, length_writeSeq]

theorem capacity_Emplace_ge (v : Vector α) (i : Nat) (x : α)
    (h : ¬ v.size_ < v.Capacity) :
    (v.Emplace i x).Capacity = if v.size_ = 0 then 1 else v.size_ * 2 := by
  unfold Emplace
  rw [if_neg h]
  simp [Capacity, length_writeSeq]

theorem size_Reserve (v : Vector α) (n : Nat) : (v.Reserve n).size_ = v.size_ := by
  unfold Reserve
  split <;> rfl

theorem capacity_Reserve (v : Vector α) (n : Nat) :
    (v.Reserve n).Capacity = if n ≤ v.Capacity then v.Capacity else n := by
  unfold Reserve
  by_cases h : n ≤ v.Capacity
  · rw [if_pos h, if_pos h]
  · rw [if_neg h, if_neg h]
    simp [Capacity, length_writeSeq]

theorem size_Erase (v : Vector α) (i : Nat) : (v.Erase i).size_ = v.size_ - 1 := rfl

theorem capacity_Erase (v : Vector α) (i : Nat) :
    (v.Erase i).Capacity = v.Capacity := by
  simp [Erase, Capacity, length_writeSeq]

theorem capacity_Resize_grow [Inhabited α] (v : Vector α) (n : Nat)
    (h1 : v.size_ < n) :
    (v.Resize n).Capacity = (v.Reserve n).Capacity := by
  unfold Resize
  rw [if_neg (by omega), if_neg (by omega)]
  simp [Capacity, length_writeSeq]

theorem size_copyAssign (v w : Vector α) :
    (copyAssign v w).size_ = w.size_ := by
  unfold copyAssign
  split <;> rfl

theorem capacity_copyAssign (v w : Vector α) :
    (copyAssign v w).Capacity
      = if v.Capacity < w.size_ then w.size_ else v.Capacity := by
  unfold copyAssign
  by_cases h : v.Capacity < w.size_
  · rw [if_pos h, if_pos h]
    unfold copyCtor Capacity
    simp [length_writeSeq]
  · rw [if_neg h, if_neg h]
    by_cases h2 : w.size_ < v.size_
    · simp [Capacity, h2, length_destroySeg, length_writeSeq]
    · simp [Capacity, h2, length_writeSeq]

end Vector

/-! Claim theorems. -/

/-- C7: constructing a vector with the sized constructor yields
`length == n`, `capacity == n`, and every element in `[0, n)` equal to the
element type's default (value-initialized) value. -/
theorem sized_ctor_spec (α : Type) [Inhabited α] (n : Nat) :
    (Vector.mkSized α n).Size = n ∧ (Vector.mkSized α n).Capacity = n ∧
    (Vector.mkSized α n).elems = List.replicate n (some (default : α)) := by
  refine ⟨rfl, ?_, ?_⟩
  · simp [Vector.mkSized, Vector.Capacity, length_writeSeq]
  · apply List.ext_getElem?
    intro k
    simp only [Vector.mkSized, Vector.elems]
    rw [getElem?_take_eq, getElem?_writeSeq]
    by_cases h : k < n
    · rw [if_pos h,
        if_pos ⟨Nat.zero_le _, by simp only [List.length_replicate]; omega,
          by simp only [List.length_replicate]; omega⟩]
      simp
    · rw [if_neg h]
      symm
      rw [List.getElem?_eq_none (by simp only [List.length_replicate]; omega)]

/-- C8: move-constructing a vector from `v` gives the new vector exactly
`v`'s prior length, capacity, and element sequence, and leaves `v` with
length 0. -/
theorem move_ctor_spec (v : Vector α) :
    (v.moveCtor.1.Size = v.Size ∧ v.moveCtor.1.Capacity = v.Capacity ∧
      v.moveCtor.1.elems = v.elems) ∧ v.moveCtor.2.Size = 0 :=
  ⟨⟨rfl, rfl, rfl⟩, rfl⟩

/-- C9: `Reserve` with a requested capacity at most the current capacity is a
no-op: the whole state (hence capacity, length and all elements) is
unchanged. -/
theorem reserve_noop (v : Vector α) (n : Nat) (h : n ≤ v.Capacity) :
    v.Reserve n = v := by
  unfold Vector.Reserve
  rw [if_pos h]

/-- Witness for `reserve_noop` at a concrete vector. -/
theorem reserve_noop_w :
    Vector.Reserve (⟨[some 1], 1⟩ : Vector Nat) 1 = (⟨[some 1], 1⟩ : Vector Nat) :=
  reserve_noop _ _ (by decide)

/-- C6: `Insert` at `end()` (offset `Size`) produces a state identical to
`PushBack` of the same value on the same starting vector (in the source both
forward to `Emplace(end(), ...)`). -/
theorem insert_at_end_eq_pushback (v : Vector α) (x : α) :
    v.Insert v.Size x = v.PushBack x := rfl

/-- C2 counterexample: a growing `Resize` on a vector of capacity 2 to size 5
sets the capacity to 5, not to `max(1, oldCapacity * 2) = 4` as the claim
states for every length-increasing operation. -/
theorem resize_growth_capacity_cex :
    ((⟨[some 1, some 2], 2⟩ : Vector Nat).Resize 5).Capacity = 5 ∧
    ((⟨[some 1, some 2], 2⟩ : Vector Nat).Resize 5).Capacity ≠
      max 1 ((⟨[some 1, some 2], 2⟩ : Vector Nat).Capacity * 2) := by
  decide

/-- C2 (amended): a growth-triggered insertion (`Emplace` with
`length == capacity`) reallocates to capacity `max(1, oldCapacity * 2)`;
a growing `Reserve`, and a growing `Resize` (which delegates to `Reserve`),
instead set the capacity to exactly the requested amount when it exceeds the
current capacity. -/
theorem growth_capacity_policy [Inhabited α] (v : Vector α) (i n : Nat) (x : α) :
    (v.size_ = v.Capacity → (v.Emplace i x).Capacity = max 1 (v.Capacity * 2)) ∧
    (v.Capacity < n → (v.Reserve n).Capacity = n) ∧
    (v.Inv → v.Capacity < n → (v.Resize n).Capacity = n) := by
  refine ⟨fun hfull => ?_, fun hgrow => ?_, fun hinv hgrow => ?_⟩
  · rw [v.capacity_Emplace_ge i x (by omega)]
    split_ifs <;> omega
  · rw [Vector.capacity_Reserve, if_neg (by omega)]
  · have hsz : v.size_ < n := by
      have := hinv
      unfold Vector.Inv at this
      omega
    rw [Vector.capacity_Resize_grow _ _ hsz, Vector.capacity_Reserve,
      if_neg (by omega)]

/-- Witness for `growth_capacity_policy` at a concrete full vector. -/
theorem growth_capacity_policy_w :
    ((⟨[some 5], 1⟩ : Vector Nat).Emplace 1 7).Capacity =
      max 1 ((⟨[some 5], 1⟩ : Vector Nat).Capacity * 2) ∧
    ((⟨[some 5], 1⟩ : Vector Nat).Reserve 3).Capacity = 3 ∧
    ((⟨[some 5], 1⟩ : Vector Nat).Resize 3).Capacity = 3 :=
  ⟨(growth_capacity_policy _ 1 3 7).1 (by decide),
   (growth_capacity_policy _ 1 3 7).2.1 (by decide),
   (growth_capacity_policy _ 1 3 7).2.2 (by decide) (by decide)⟩

/-- C3: evaluation of the `RawMemory` move operations at concrete states.
The move constructor leaves the moved-from source with its capacity (3, not
0 as claimed) and with the same buffer as the destination (double ownership,
hence a double `operator delete` when both are destroyed); the move
assignment swaps, leaving the source with the destination's old capacity
(5 here), which is zero only when the destination was empty. -/
theorem raw_memory_move_source_eval :
    (RawMemory.moveCtor ⟨some 1, 3⟩).2.capacity_ = 3 ∧
    (RawMemory.moveCtor ⟨some 1, 3⟩).2.capacity_ ≠ 0 ∧
    (RawMemory.moveCtor ⟨some 1, 3⟩).1.buffer_ = some 1 ∧
    (RawMemory.moveCtor ⟨some 1, 3⟩).2.buffer_ = some 1 ∧
    (RawMemory.moveAssign ⟨some 2, 5⟩ ⟨some 1, 3⟩).2.capacity_ = 5 := by
  decide

/-- C1: evaluation of copy-assignment in the storage-reuse branch at the
failing input `a = {10, 20}` (capacity 4), `b = {1, 2, 3}`: the source's
extra suffix is placement-new-copied to offset 0 instead of offset
`a.size_` (vector.h:246), so the result is `{3, 2, <raw>}` with length 3 —
not element-wise equal to `b` as the claim states, and with an
uninitialized cell inside the live range. -/
theorem copy_assign_reuse_bug_eval :
    Vector.copyAssign (⟨[some 10, some 20, none, none], 2⟩ : Vector Nat)
        ⟨[some 1, some 2, some 3], 3⟩ =
      ⟨[some 3, some 2, none, none], 3⟩ ∧
    (Vector.copyAssign (⟨[some 10, some 20, none, none], 2⟩ : Vector Nat)
        ⟨[some 1, some 2, some 3], 3⟩).elems ≠
      (⟨[some 1, some 2, some 3], 3⟩ : Vector Nat).elems := by
  decide

/-- C4: strong exception-safety of the capacity-exhausted branch of
`Emplace`/`Insert`.  If transferring either the prefix segment or the suffix
segment fails (a throwing element copy), every element already constructed in
the new storage is destroyed (`newDestroyed = newConstructed`), the vector's
elements, length and capacity are exactly as before the call (`vec = v`), and
no old element was destroyed nor the old storage released; on the
exception-free path the old elements are destroyed, the old storage is
released, and the result agrees with the plain `Emplace` model. -/
theorem emplace_grow_strong_guarantee (v : Vector α) (offset : Nat) (x : α)
    (fp fs : Option Nat) :
    (fp ≠ none ∨ fs ≠ none →
      (Vector.EmplaceGrow v offset x fp fs).threw = true ∧
      (Vector.EmplaceGrow v offset x fp fs).vec = v ∧
      (Vector.EmplaceGrow v offset x fp fs).newDestroyed =
        (Vector.EmplaceGrow v offset x fp fs).newConstructed ∧
      (Vector.EmplaceGrow v offset x fp fs).oldDestroyed = 0 ∧
      (Vector.EmplaceGrow v offset x fp fs).oldReleased = false) ∧
    (fp = none → fs = none → v.Capacity ≤ v.size_ →
      (Vector.EmplaceGrow v offset x fp fs).threw = false ∧
      (Vector.EmplaceGrow v offset x fp fs).oldDestroyed = v.size_ ∧
      (Vector.EmplaceGrow v offset x fp fs).oldReleased = true ∧
      (Vector.EmplaceGrow v offset x fp fs).vec = v.Emplace offset x) := by
  rcases fp with _ | k
  · rcases fs with _ | k
    · constructor
      · intro h
        rcases h with h | h <;> exact absurd rfl h
      · intro _ _ hcap
        refine ⟨rfl, rfl, rfl, ?_⟩
        show _ = v.Emplace offset x
        unfold Vector.Emplace
        rw [if_neg (by omega)]
        rfl
    · constructor
      · intro _
        exact ⟨rfl, rfl, show k + (offset + 1) = 1 + offset + k by omega, rfl, rfl⟩
      · intro _ h2 _
        exact absurd h2 (by simp)
  · constructor
    · intro _
      exact ⟨rfl, rfl, show k + 1 = 1 + k by omega, rfl, rfl⟩
    · intro h1 _ _
      exact absurd h1 (by simp)

/-- Witness for `emplace_grow_strong_guarantee`: a growth-triggered insertion
at offset 1 into a full two-element vector, once with the suffix transfer
throwing on its second element (original vector unchanged), once
exception-free (agrees with `Emplace`). -/
theorem emplace_grow_strong_guarantee_w :
    (Vector.EmplaceGrow (⟨[some 1, some 2], 2⟩ : Vector Nat) 1 9 none (some 1)).vec =
      (⟨[some 1, some 2], 2⟩ : Vector Nat) ∧
    (Vector.EmplaceGrow (⟨[some 1, some 2], 2⟩ : Vector Nat) 1 9 none none).vec =
      (⟨[some 1, some 2], 2⟩ : Vector Nat).Emplace 1 9 :=
  ⟨((emplace_grow_strong_guarantee _ 1 9 none (some 1)).1 (by simp)).2.1,
   ((emplace_grow_strong_guarantee _ 1 9 none none).2 rfl rfl (by decide)).2.2.2⟩

/-- C5: for a valid dereferenceable position (`i < size_`) on a vector
satisfying the class invariant, `Erase` yields the old sequence with the
element at `i` removed, decrements the length by one, and leaves the capacity
(storage) unchanged — no reallocation.  (The source's move/copy branch choice
has the same value-level effect in both branches.) -/
theorem erase_spec (v : Vector α) (i : Nat) (hi : i < v.size_) (hinv : v.Inv) :
    (v.Erase i).Size = v.Size - 1 ∧
    (v.Erase i).Capacity = v.Capacity ∧
    (v.Erase i).elems = v.elems.take i ++ v.elems.drop (i + 1) := by
  have hcap : v.size_ ≤ v.data_.length := hinv
  refine ⟨rfl, v.capacity_Erase i, ?_⟩
  have hseglen : (seg v.data_ (i + 1) (v.size_ - (i + 1))).length
      = v.size_ - (i + 1) := by
    rw [length_seg]
    omega
  apply List.ext_getElem?
  intro k
  simp only [Vector.Erase, Vector.elems]
  rw [getElem?_take_eq, List.getElem?_append, List.length_take, List.length_take]
  rcases Nat.lt_or_ge k i with hk | hk
  · rw [if_pos (by omega), getElem?_writeSeq, if_neg (by omega),
      List.getElem?_set, if_neg (by omega), if_pos (by omega),
      getElem?_take_eq, if_pos hk, getElem?_take_eq, if_pos (by omega)]
  · rcases Nat.lt_or_ge k (v.size_ - 1) with hk2 | hk2
    · rw [if_pos hk2, getElem?_writeSeq, hseglen, List.length_set,
        if_pos ⟨hk, by omega, by omega⟩, getElem?_seg, if_pos (by omega),
        if_neg (by omega), List.getElem?_drop, getElem?_take_eq]
      rw [if_pos (by omega)]
      congr 1
      omega
    · rw [if_neg (by omega), if_neg (by omega), List.getElem?_drop,
        getElem?_take_eq, if_neg (by omega)]

/-- Witness for `erase_spec`: erasing the middle element of `{1, 2, 3}`. -/
theorem erase_spec_w :
    ((⟨[some 1, some 2, some 3], 3⟩ : Vector Nat).Erase 1).elems =
      (⟨[some 1, some 2, some 3], 3⟩ : Vector Nat).elems.take 1 ++
      (⟨[some 1, some 2, some 3], 3⟩ : Vector Nat).elems.drop 2 :=
  (erase_spec _ 1 (by decide) (by decide)).2.2

/-- C10: every public operation applied to vectors satisfying the
representation invariant `0 ≤ size_ ≤ Capacity` (the lower bound is implicit
in `Nat`) yields vectors that still satisfy it, under each operation's
precondition: position `≤ size_` for `Emplace`/`Insert` (and implicitly for
`PushBack`/`EmplaceBack`), position `< size_` for `Erase`, and `size_ > 0`
for `PopBack`.  `PopBack` performs no emptiness check: on an empty vector its
`size_t` decrement wraps to `2^64 - 1`, which exceeds any capacity an
allocation can realize (`Capacity < 2^64 - 1`), so the invariant is then
violated — it is kept only under the precondition.  The bound
`size_ < 2^64` on the positive `PopBack` case is the machine width of
`size_t`. -/
theorem public_ops_preserve_invariant [Inhabited α] (v w : Vector α)
    (i j n : Nat) (x : α) (hv : v.Inv) (hw : w.Inv) :
    (i ≤ v.size_ → (v.Emplace i x).Inv) ∧
    (i ≤ v.size_ → (v.Insert i x).Inv) ∧
    (v.PushBack x).Inv ∧
    (v.EmplaceBack x).Inv ∧
    (j < v.size_ → (v.Erase j).Inv) ∧
    (0 < v.size_ → v.size_ < 18446744073709551616 → v.PopBack.Inv) ∧
    (v.size_ = 0 → v.Capacity < 18446744073709551616 - 1 → ¬ v.PopBack.Inv) ∧
    (v.Resize n).Inv ∧
    (v.Reserve n).Inv ∧
    (Vector.copyAssign v w).Inv ∧
    ((Vector.moveAssign v w).1.Inv ∧ (Vector.moveAssign v w).2.Inv) ∧
    ((Vector.SwapV v w).1.Inv ∧ (Vector.SwapV v w).2.Inv) := by
  have hvc : v.size_ ≤ v.data_.length := hv
  have hv2 : v.size_ ≤ v.Capacity := hv
  have hlen : v.Capacity = List.length v.data_ := rfl
  have hemp : ∀ m : Nat, (v.Emplace m x).Inv := by
    intro m
    unfold Vector.Inv
    rw [Vector.size_Emplace]
    by_cases h : v.size_ < v.Capacity
    · rw [Vector.capacity_Emplace_lt _ _ _ h]
      omega
    · rw [Vector.capacity_Emplace_ge _ _ _ h]
      split_ifs <;> omega
  refine ⟨fun _ => hemp i, fun _ => hemp i, hemp v.size_, hemp v.size_,
    fun _ => ?_, fun h1 h2 => ?_, fun h1 h2 hcontra => ?_, ?_, ?_, ?_,
    ⟨hw, Nat.zero_le _⟩, ⟨hw, hv⟩⟩
  · unfold Vector.Inv
    rw [Vector.size_Erase, Vector.capacity_Erase]
    omega
  · unfold Vector.Inv Vector.PopBack Vector.Capacity
    simp only [List.length_set]
    omega
  · unfold Vector.Inv Vector.PopBack Vector.Capacity at hcontra
    unfold Vector.Capacity at h2
    simp only [List.length_set] at hcontra
    omega
  · unfold Vector.Resize
    by_cases h1 : n = v.size_
    · rw [if_pos h1]
      exact hv
    · rw [if_neg h1]
      by_cases h2 : n < v.size_
      · rw [if_pos h2]
        unfold Vector.Inv Vector.Capacity
        simp only [length_destroySeg]
        omega
      · rw [if_neg h2]
        unfold Vector.Inv Vector.Capacity
        simp only [length_writeSeq]
        have hc := Vector.capacity_Reserve v n
        unfold Vector.Capacity at hc
        rw [hc]
        split_ifs <;> omega
  · unfold Vector.Inv
    rw [Vector.size_Reserve, Vector.capacity_Reserve]
    split_ifs <;> omega
  · unfold Vector.Inv
    rw [Vector.size_copyAssign, Vector.capacity_copyAssign]
    split_ifs <;> omega

/-- Witness for `public_ops_preserve_invariant` at concrete vectors,
including the violated invariant after `PopBack` on an empty vector. -/
theorem public_ops_preserve_invariant_w :
    ((⟨[some 1, none], 1⟩ : Vector Nat).Emplace 0 5).Inv ∧
    ((⟨[some 1, none], 1⟩ : Vector Nat).Erase 0).Inv ∧
    ((⟨[some 1, none], 1⟩ : Vector Nat).PopBack).Inv ∧
    (¬ ((⟨[], 0⟩ : Vector Nat).PopBack).Inv) ∧
    ((⟨[some 1, none], 1⟩ : Vector Nat).Resize 3).Inv ∧
    (Vector.copyAssign (⟨[some 1, none], 1⟩ : Vector Nat) ⟨[some 7], 1⟩).Inv := by
  have h := public_ops_preserve_invariant (⟨[some 1, none], 1⟩ : Vector Nat)
    ⟨[some 7], 1⟩ 0 0 3 5 (by decide) (by decide)
  have h0 := public_ops_preserve_invariant (⟨[], 0⟩ : Vector Nat)
    ⟨[some 7], 1⟩ 0 0 3 5 (by decide) (by decide)
  exact ⟨h.1 (by decide), h.2.2.2.2.1 (by decide),
    h.2.2.2.2.2.1 (by decide) (by decide),
    h0.2.2.2.2.2.2.1 rfl (by decide),
    h.2.2.2.2.2.2.2.1, h.2.2.2.2.2.2.2.2.2.1⟩

end SimpleVector
